import Mathlib

/-!
Verification of the request-dispatch core of hreq: the router, the
middleware chain construction, the transport union and the error
taxonomy.  Definitions are shallow embeddings of the Rust source
(`src/error.rs`, `src/either.rs`, `src/server/router.rs`); components of
the repository that are referenced but not present in the source tree
(the path pattern, the middleware chain and the `Reply` type) are
modelled from the specification and marked as such in their doc
comments.
-/

namespace Hreq

/- ### Error taxonomy (src/error.rs) -/

/-- The kinds of `std::io::Error` referenced by the source, plus the
remaining standard kinds so that `other` failure kinds are representable. -/
inductive IoErrorKind where
  | NotFound
  | PermissionDenied
  | ConnectionRefused
  | ConnectionReset
  | ConnectionAborted
  | NotConnected
  | AddrInUse
  | AddrNotAvailable
  | BrokenPipe
  | AlreadyExists
  | WouldBlock
  | InvalidInput
  | InvalidData
  | TimedOut
  | WriteZero
  | Interrupted
  | UnexpectedEof
  | Other
deriving DecidableEq, Repr

/-- `std::io::Error`: the embedding keeps the kind, which is the only
component the source inspects. -/
structure IoError where
  kind : IoErrorKind
deriving DecidableEq, Repr

/-- `httparse::Error` (external collaborator, opaque payload). -/
structure Http11ParseError where
  code : Nat
deriving DecidableEq, Repr

/-- `http::Error` (external collaborator, opaque payload). -/
structure HttpError where
  code : Nat
deriving DecidableEq, Repr

/-- `rustls::TLSError` (external collaborator, opaque payload). -/
structure TLSError where
  code : Nat
deriving DecidableEq, Repr

/-- `webpki::InvalidDNSNameError` (external collaborator, opaque payload). -/
structure InvalidDNSNameError where
  code : Nat
deriving DecidableEq, Repr

/-- `h2::Error` (external collaborator): an HTTP/2-level error either
wraps an underlying I/O failure or carries a protocol-level reason.
`is_io`/`into_io` below mirror the h2 crate methods used by the source. -/
inductive H2Error where
  | wrappedIo (e : IoError)
  | reason (code : Nat)
deriving DecidableEq, Repr

/-- `h2::Error::is_io`. -/
def H2Error.is_io : H2Error → Bool
  | .wrappedIo _ => true
  | .reason _ => false

/-- `h2::Error::into_io`. -/
def H2Error.into_io : H2Error → Option IoError
  | .wrappedIo e => some e
  | .reason _ => none

/-- The unified `Error` enum of `src/error.rs` (both tls-feature
variants included). -/
inductive Error where
  | User (v : List Char)
  | Proto (v : List Char)
  | Io (e : IoError)
  | Http11Parse (e : Http11ParseError)
  | H2 (e : H2Error)
  | Http (e : HttpError)
  | TlsError (e : TLSError)
  | DnsName (e : InvalidDNSNameError)
deriving DecidableEq, Repr

/-- `Error::is_io` from src/error.rs. -/
def Error.is_io : Error → Bool
  | .Io _ => true
  | _ => false

/-- `Error::into_io` from src/error.rs. -/
def Error.into_io : Error → Option IoError
  | .Io e => some e
  | _ => none

/-- `Error::is_timeout` from src/error.rs. -/
def Error.is_timeout : Error → Bool
  | .Io e => e.kind == IoErrorKind.TimedOut
  | _ => false

/-- `Error::is_retryable` from src/error.rs. -/
def Error.is_retryable : Error → Bool
  | .Io e =>
    match e.kind with
    | IoErrorKind.BrokenPipe => true
    | IoErrorKind.ConnectionAborted => true
    | IoErrorKind.ConnectionReset => true
    | IoErrorKind.Interrupted => true
    | _ => false
  | _ => false

/-- `impl From h2::Error for Error` from src/error.rs: an HTTP/2 error
wrapping an I/O failure is reclassified as the I/O variant (the source
unwraps `into_io`; the `getD` default is unreachable because `is_io`
guarantees the option is populated, see `H2Error.is_io_into_io`). -/
def Error.fromH2 (e : H2Error) : Error :=
  if e.is_io then Error.Io (e.into_io.getD ⟨IoErrorKind.Other⟩)
  else Error.H2 e

theorem H2Error.is_io_into_io (e : H2Error) :
    e.is_io = true ↔ ∃ v, e.into_io = some v := by
  cases e <;> simp [H2Error.is_io, H2Error.into_io]

/- ### Transport union (src/either.rs)

Asynchronous polling is embedded by explicit state passing: a concrete
stream type `σ` supplies pure transition functions; each `poll_*`
operation consumes the stream state and the task context and returns
the successor stream state together with a `Poll` outcome.  `Pin` and
the waker inside `Context` are irrelevant to the dispatch logic and are
kept abstract as the type parameter `Ctx`. -/

/-- `std::task::Poll`. -/
inductive Poll (α : Type) where
  | Ready (v : α)
  | Pending
deriving DecidableEq, Repr

/-- The byte-stream operations of a concrete transport (`AsyncRead` +
`AsyncWrite`): read additionally returns the filled buffer. -/
structure StreamOps (Ctx Buf σ : Type) where
  poll_read : σ → Ctx → Buf → σ × Buf × Poll (Except IoError Nat)
  poll_write : σ → Ctx → Buf → σ × Poll (Except IoError Nat)
  poll_flush : σ → Ctx → σ × Poll (Except IoError Unit)
  poll_close : σ → Ctx → σ × Poll (Except IoError Unit)

/-- The item-stream operation of a concrete transport
(`futures_core::stream::Stream`), used in server mode. -/
structure ItemStreamOps (Ctx σ Item : Type) where
  poll_next : σ → Ctx → σ × Poll (Option Item)

/-- The two-variant transport union of src/either.rs. -/
inductive Either (α β : Type) where
  | A (a : α)
  | B (b : β)

/-- `impl AsyncRead for Either`: `poll_read` dispatches on the held
variant. -/
def Either.poll_read (oa : StreamOps Ctx Buf α) (ob : StreamOps Ctx Buf β) :
    Either α β → Ctx → Buf → Either α β × Buf × Poll (Except IoError Nat)
  | .A a, cx, buf =>
    match oa.poll_read a cx buf with
    | (s, b, p) => (Either.A s, b, p)
  | .B b, cx, buf =>
    match ob.poll_read b cx buf with
    | (s, bu, p) => (Either.B s, bu, p)

/-- `impl AsyncWrite for Either`: `poll_write`. -/
def Either.poll_write (oa : StreamOps Ctx Buf α) (ob : StreamOps Ctx Buf β) :
    Either α β → Ctx → Buf → Either α β × Poll (Except IoError Nat)
  | .A a, cx, buf =>
    match oa.poll_write a cx buf with
    | (s, p) => (Either.A s, p)
  | .B b, cx, buf =>
    match ob.poll_write b cx buf with
    | (s, p) => (Either.B s, p)

/-- `impl AsyncWrite for Either`: `poll_flush`. -/
def Either.poll_flush (oa : StreamOps Ctx Buf α) (ob : StreamOps Ctx Buf β) :
    Either α β → Ctx → Either α β × Poll (Except IoError Unit)
  | .A a, cx =>
    match oa.poll_flush a cx with
    | (s, p) => (Either.A s, p)
  | .B b, cx =>
    match ob.poll_flush b cx with
    | (s, p) => (Either.B s, p)

/-- `impl AsyncWrite for Either`: `poll_close`. -/
def Either.poll_close (oa : StreamOps Ctx Buf α) (ob : StreamOps Ctx Buf β) :
    Either α β → Ctx → Either α β × Poll (Except IoError Unit)
  | .A a, cx =>
    match oa.poll_close a cx with
    | (s, p) => (Either.A s, p)
  | .B b, cx =>
    match ob.poll_close b cx with
    | (s, p) => (Either.B s, p)

/-- `impl FutStream for Either` (server mode): `poll_next`. -/
def Either.poll_next (ia : ItemStreamOps Ctx α Item) (ib : ItemStreamOps Ctx β Item) :
    Either α β → Ctx → Either α β × Poll (Option Item)
  | .A a, cx =>
    match ia.poll_next a cx with
    | (s, p) => (Either.A s, p)
  | .B b, cx =>
    match ib.poll_next b cx with
    | (s, p) => (Either.B s, p)

/- ### Path pattern (spec-modelled) -/

/-- Modelled from the spec: segment descriptors of a Path Pattern
(src/server/path.rs is not in the source tree).  A segment is literal
text, a named capture, or a wildcard capturing the remainder. -/
inductive Segment where
  | lit (text : List Char)
  | param (name : List Char)
  | wildcard (name : List Char)
deriving DecidableEq, Repr

/-- Split a path on the separator character, e.g. "/a/b" becomes
["", "a", "b"]. -/
def splitSlash : List Char → List (List Char)
  | [] => [[]]
  | '/' :: rest => [] :: splitSlash rest
  | c :: rest =>
    match splitSlash rest with
    | [] => [[c]]
    | g :: gs => (c :: g) :: gs

/-- Modelled from the spec: `ParsedPath` — the ordered segment sequence
of a route pattern; two patterns are equal iff their segment sequences
are structurally identical. -/
structure ParsedPath where
  segments : List Segment
deriving DecidableEq, Repr

/-- Modelled from the spec: one pattern segment, as parsed — the
reserved prefix character introduces a named capture, the trailing
special segment a wildcard, anything else is literal text. -/
def Segment.parseOne : List Char → Segment
  | ':' :: name => Segment.param name
  | '*' :: name => Segment.wildcard name
  | s => Segment.lit s

/-- Modelled from the spec: `ParsedPath::parse` splits the pattern on
the separator and classifies each piece. -/
def ParsedPath.parse (s : List Char) : ParsedPath :=
  ⟨(splitSlash s).map Segment.parseOne⟩

/-- A Match Result: mapping from capture name to captured substring. -/
abbrev MatchResult := List (List Char × List Char)

/-- Modelled from the spec: positional walk of pattern segments against
path segments — literals need equality, named captures record the
segment, a final wildcard captures the joined remainder; a
segment-count mismatch without a trailing wildcard is a non-match. -/
def matchSegs : List Segment → List (List Char) → Option MatchResult
  | [], [] => some []
  | [], _ :: _ => none
  | [Segment.wildcard n], ps => some [(n, List.intercalate ['/'] ps)]
  | Segment.lit t :: rest, p :: ps =>
    if t = p then matchSegs rest ps else none
  | Segment.param n :: rest, p :: ps =>
    (matchSegs rest ps).map (fun m => (n, p) :: m)
  | Segment.wildcard _ :: _ :: _, _ => none
  | _ :: _, [] => none

/-- Modelled from the spec: `ParsedPath::path_match` — match a concrete
request path against the pattern, producing the parameter mapping or
failure. -/
def ParsedPath.path_match (pp : ParsedPath) (path : List Char) : Option MatchResult :=
  matchSegs pp.segments (splitSlash path)

/- ### RouteMethod (src/server/router.rs) -/

/-- `http::Method`, represented by its name. -/
abbrev HttpMethod := List Char

/-- `RouteMethod` from src/server/router.rs. -/
inductive RouteMethod where
  | All
  | Method (m : HttpMethod)
deriving DecidableEq, Repr

/-- `impl PartialEq http::Method for RouteMethod` from
src/server/router.rs: the any-method variant equals every method, the
specific variant only its own value. -/
def RouteMethod.eqMethod : RouteMethod → HttpMethod → Bool
  | .All, _ => true
  | .Method m, other => m == other

/- ### Requests, responses, chain (chain spec-modelled) -/

/-- The parts of `http::Request` the router reads and writes: the
method, the URI path, and the extension slot holding the Match Result. -/
structure Request where
  method : HttpMethod
  path : List Char
  ext : Option MatchResult

/-- `req.extensions_mut().insert(m)`: store the Match Result in the
request's extension data. -/
def Request.insertExt (req : Request) (m : MatchResult) : Request :=
  { req with ext := some m }

/-- The parts of `http::Response` the claims observe: status and body. -/
structure Response where
  status : Nat
  body : List Char
deriving DecidableEq, Repr

/-- Modelled from the spec: `Reply` (not in the source tree) — the
outcome of running a chain, either a response or a unified `Error`
(a failure terminates the request and is returned to the caller). -/
abbrev Reply := Except Error Response

/-- Modelled from the spec: `End` — a terminal handler consuming the
shared state and the request and producing a reply. -/
abbrev End (State : Type) := State → Request → Reply

/-- Modelled from the spec: `Mid` — a middleware receiving the state,
the request and a continuation for the remainder of the chain; it may
call the continuation or short-circuit with its own reply. -/
abbrev Mid (State : Type) := State → Request → (Request → Reply) → Reply

/-- Modelled from the spec: `Chain` (src/server/chain.rs is not in the
source tree) — a terminal handler, or one middleware wrapped ahead of
the remainder of the chain. -/
inductive Chain (State : Type) where
  | terminal (e : End State)
  | link (m : Mid State) (rest : Chain State)

/-- Modelled from the spec: `MidWrap::wrap` produces a new link holding
the middleware ahead of the rest of the chain. -/
def MidWrap.wrap (m : Mid State) (rest : Chain State) : Chain State :=
  Chain.link m rest

/-- Modelled from the spec: `Chain::run` — a terminal invokes the
handler; a link invokes the middleware with a continuation that runs
the remainder. -/
def Chain.run : Chain State → State → Request → Reply
  | .terminal e, s, req => e s req
  | .link m rest, s, req => m s req (fun req2 => rest.run s req2)

/- ### Router (src/server/router.rs) -/

/-- `Endpoint` from src/server/router.rs. -/
structure Endpoint (State : Type) where
  method : RouteMethod
  path : ParsedPath
  chain : Chain State

/-- `Endpoint::is_path` from src/server/router.rs: pattern equality. -/
def Endpoint.is_path (ep : Endpoint State) (path : ParsedPath) : Bool :=
  ep.path == path

/-- `Router` from src/server/router.rs: the mount prefix (`pfx` here)
and the endpoint vector. -/
structure Router (State : Type) where
  pfx : List Char
  endpoints : List (Endpoint State)

/-- `Router::new`. -/
def Router.new : Router State := ⟨[], []⟩

/-- `Router::set_prefix`. -/
def Router.set_prefix (r : Router State) (p : List Char) : Router State :=
  { r with pfx := p }

/-- `Router::reset` from src/server/router.rs: retain only the
endpoints whose pattern is not the given one. -/
def Router.reset (r : Router State) (path : ParsedPath) : Router State :=
  { r with endpoints := r.endpoints.filter (fun ep => !(ep.is_path path)) }

/-- The chain built by `Router::add_handler`: start from the terminal
handler and wrap each middleware around the accumulator, iterating the
middleware list in reverse. -/
def mkChain (mw : List (Mid State)) (e : End State) : Chain State :=
  mw.reverse.foldl (fun chain mid => MidWrap.wrap mid chain) (Chain.terminal e)

/-- `Router::add_handler` from src/server/router.rs: build the chain
and push a new endpoint. -/
def Router.add_handler (r : Router State) (method : RouteMethod)
    (path : ParsedPath) (mw : List (Mid State)) (e : End State) : Router State :=
  { r with endpoints := r.endpoints ++ [⟨method, path, mkChain mw e⟩] }

/-- One full registration: `Router::at` resets the pattern's prior
endpoints and the terminal route call reaches `add_handler`. -/
def Router.register (r : Router State) (method : RouteMethod)
    (path : ParsedPath) (mw : List (Mid State)) (e : End State) : Router State :=
  (r.reset path).add_handler method path mw e

/-- `str::replacen(pat, "", 1)` on the request path: remove the first
occurrence of `pat` (removing the empty pattern changes nothing). -/
def replaceFirst (s pat : List Char) : List Char :=
  if pat.isPrefixOf s then s.drop pat.length
  else
    match s with
    | [] => []
    | c :: rest => c :: replaceFirst rest pat

/-- The endpoint scan inside `Router::run`: skip an endpoint whose
method does not equal the request's method; at the first pattern match
insert the Match Result and run the chain; after the scan synthesize
the 404 response. -/
def dispatchLoop (s : State) (req : Request) (path : List Char) :
    List (Endpoint State) → Reply
  | [] => Except.ok ⟨404, "Not found".toList⟩
  | ep :: rest =>
    if ep.method.eqMethod req.method then
      match ep.path.path_match path with
      | some m => ep.chain.run s (req.insertExt m)
      | none => dispatchLoop s req path rest
    else dispatchLoop s req path rest

/-- `Router::run` from src/server/router.rs: assert the request path
begins with the mount prefix (`none` models the assertion failure),
strip the prefix's first occurrence, and scan the endpoints. -/
def Router.run (r : Router State) (s : State) (req : Request) : Option Reply :=
  if r.pfx.isPrefixOf req.path then
    some (dispatchLoop s req (replaceFirst req.path r.pfx) r.endpoints)
  else none

/- ### Theorems -/

/-- C4: `is_retryable` is true exactly on the I/O variant whose kind is
BrokenPipe, ConnectionAborted, ConnectionReset or Interrupted; it is
false on every other variant and on every other I/O kind. -/
theorem is_retryable_spec (err : Error) :
    err.is_retryable = true ↔
      ∃ e, err = Error.Io e ∧
        (e.kind = IoErrorKind.BrokenPipe ∨ e.kind = IoErrorKind.ConnectionAborted ∨
         e.kind = IoErrorKind.ConnectionReset ∨ e.kind = IoErrorKind.Interrupted) := by
  cases err with
  | Io e =>
    obtain ⟨k⟩ := e
    cases k <;> simp [Error.is_retryable]
  | _ => simp [Error.is_retryable]

/-- C6: `is_io` is true exactly on the I/O variant; `is_timeout` is
true exactly on an I/O variant whose kind is TimedOut; both are false
on every other variant, and `is_timeout` on every other I/O kind. -/
theorem is_io_is_timeout_spec (err : Error) :
    (err.is_io = true ↔ ∃ e, err = Error.Io e) ∧
    (err.is_timeout = true ↔
      ∃ e, err = Error.Io e ∧ e.kind = IoErrorKind.TimedOut) := by
  constructor
  · cases err <;> simp [Error.is_io]
  · cases err with
    | Io e =>
      obtain ⟨k⟩ := e
      cases k <;> simp [Error.is_timeout]
    | _ => simp [Error.is_timeout]

/-- C5: converting an `h2::Error` that wraps an I/O failure produces
the I/O variant holding the unwrapped io error; converting any other
`h2::Error` produces the HTTP/2 variant holding it; so an HTTP/2 error
wrapping an I/O failure is never represented as the HTTP/2 variant. -/
theorem fromH2_spec (e : H2Error) :
    (∀ v, e.into_io = some v → Error.fromH2 e = Error.Io v) ∧
    (e.into_io = none → Error.fromH2 e = Error.H2 e) ∧
    (e.is_io = true → ∀ x, Error.fromH2 e ≠ Error.H2 x) := by
  cases e <;>
    simp [H2Error.into_io, H2Error.is_io, Error.fromH2, Option.getD]

theorem fromH2_spec_witness :
    (Error.fromH2 (H2Error.wrappedIo ⟨IoErrorKind.BrokenPipe⟩) =
      Error.Io ⟨IoErrorKind.BrokenPipe⟩) ∧
    (Error.fromH2 (H2Error.reason 7) = Error.H2 (H2Error.reason 7)) :=
  ⟨(fromH2_spec (H2Error.wrappedIo ⟨IoErrorKind.BrokenPipe⟩)).1 _ rfl,
   (fromH2_spec (H2Error.reason 7)).2.1 rfl⟩

/-- C9: every byte-stream operation and the server-mode item poll on
the union forwards to the concrete stream held in the active variant,
with the same outcome, and the successor union holds the same variant
(the result is rebuilt with the same constructor around the successor
stream state). -/
theorem either_forwarding {α β Ctx Buf Item : Type}
    (oa : StreamOps Ctx Buf α) (ob : StreamOps Ctx Buf β)
    (ia : ItemStreamOps Ctx α Item) (ib : ItemStreamOps Ctx β Item)
    (a : α) (b : β) (cx : Ctx) (buf : Buf) :
    (Either.poll_read oa ob (Either.A a) cx buf =
      (Either.A (oa.poll_read a cx buf).1, (oa.poll_read a cx buf).2)) ∧
    (Either.poll_read oa ob (Either.B b) cx buf =
      (Either.B (ob.poll_read b cx buf).1, (ob.poll_read b cx buf).2)) ∧
    (Either.poll_write oa ob (Either.A a) cx buf =
      (Either.A (oa.poll_write a cx buf).1, (oa.poll_write a cx buf).2)) ∧
    (Either.poll_write oa ob (Either.B b) cx buf =
      (Either.B (ob.poll_write b cx buf).1, (ob.poll_write b cx buf).2)) ∧
    (Either.poll_flush oa ob (Either.A a) cx =
      (Either.A (oa.poll_flush a cx).1, (oa.poll_flush a cx).2)) ∧
    (Either.poll_flush oa ob (Either.B b) cx =
      (Either.B (ob.poll_flush b cx).1, (ob.poll_flush b cx).2)) ∧
    (Either.poll_close oa ob (Either.A a) cx =
      (Either.A (oa.poll_close a cx).1, (oa.poll_close a cx).2)) ∧
    (Either.poll_close oa ob (Either.B b) cx =
      (Either.B (ob.poll_close b cx).1, (ob.poll_close b cx).2)) ∧
    (Either.poll_next ia ib (Either.A a) cx =
      (Either.A (ia.poll_next a cx).1, (ia.poll_next a cx).2)) ∧
    (Either.poll_next ia ib (Either.B b) cx =
      (Either.B (ib.poll_next b cx).1, (ib.poll_next b cx).2)) :=
  ⟨rfl, rfl, rfl, rfl, rfl, rfl, rfl, rfl, rfl, rfl⟩

/-- C7: `add_handler` builds the chain back-to-front — the terminal
handler is converted first and each middleware of the list is wrapped
around the accumulator in reverse list order — so the resulting chain
is `wrap m1 (wrap m2 (... wrap mn (terminal e)))` with the
first-listed middleware outermost, and exactly one endpoint holding
that chain is appended. -/
theorem add_handler_spec (r : Router State) (method : RouteMethod)
    (path : ParsedPath) (mw : List (Mid State)) (e : End State) :
    (r.add_handler method path mw e).endpoints =
      r.endpoints ++ [⟨method, path, mw.foldr MidWrap.wrap (Chain.terminal e)⟩] := by
  have hchain : mkChain mw e = mw.foldr MidWrap.wrap (Chain.terminal e) := by
    unfold mkChain
    rw [List.foldl_reverse]
  simp [Router.add_handler, hchain]

/-- Auxiliary: a filter keeping only non-`p` elements leaves nothing
for the filter keeping only `p` elements. -/
theorem filter_not_filter (p : α → Bool) (l : List α) :
    (l.filter (fun x => !(p x))).filter p = [] := by
  rw [List.filter_filter, List.filter_eq_nil_iff]
  intro a _
  cases p a <;> simp

/-- C3: `at` removes every existing endpoint whose pattern equals the
registered pattern, regardless of its method or chain; hence after
registering the same pattern twice, exactly one endpoint for it
remains, holding the second registration's method and chain. -/
theorem register_twice_dedup (r : Router State) (m1 m2 : RouteMethod)
    (p : ParsedPath) (mw1 mw2 : List (Mid State)) (e1 e2 : End State) :
    ((r.reset p).endpoints = r.endpoints.filter (fun ep => !(ep.is_path p))) ∧
    (((r.register m1 p mw1 e1).register m2 p mw2 e2).endpoints.filter
        (fun ep => ep.is_path p) = [⟨m2, p, mkChain mw2 e2⟩]) := by
  refine ⟨rfl, ?_⟩
  simp only [Router.register, Router.reset, Router.add_handler,
    List.filter_append]
  rw [filter_not_filter]
  simp [Endpoint.is_path, List.filter, filter_not_filter]

/-- C10: a re-registration removes only the endpoints whose pattern
equals the registered pattern, keeps the mount prefix and the relative
order and contents of every other endpoint, and appends the new
endpoint at the end of the vector, making it the lowest-precedence
endpoint in the scan order. -/
theorem register_frame (r : Router State) (m : RouteMethod) (p : ParsedPath)
    (mw : List (Mid State)) (e : End State) :
    ((r.register m p mw e).pfx = r.pfx) ∧
    ((r.register m p mw e).endpoints =
      r.endpoints.filter (fun ep => !(ep.is_path p)) ++ [⟨m, p, mkChain mw e⟩]) ∧
    ((r.register m p mw e).endpoints.getLast? = some ⟨m, p, mkChain mw e⟩) := by
  refine ⟨rfl, rfl, ?_⟩
  simp [Router.register, Router.reset, Router.add_handler]

/-- Auxiliary: removing the first occurrence of a pattern that sits at
the front of the string drops exactly the pattern's length. -/
theorem replaceFirst_of_isPrefixOf (s pat : List Char)
    (h : pat.isPrefixOf s = true) :
    replaceFirst s pat = s.drop pat.length := by
  unfold replaceFirst
  simp [h]

/-- Auxiliary: the scan passes over an endpoint whose method does not
equal the request's method, or whose pattern does not match the path. -/
theorem dispatchLoop_skip (s : State) (req : Request) (path : List Char)
    (ep : Endpoint State) (rest : List (Endpoint State))
    (h : ep.method.eqMethod req.method = false ∨
      ep.path.path_match path = none) :
    dispatchLoop s req path (ep :: rest) = dispatchLoop s req path rest := by
  rcases h with h | h
  · simp [dispatchLoop, h]
  · cases hm : ep.method.eqMethod req.method <;> simp [dispatchLoop, hm, h]

/-- Auxiliary: the scan dispatches at an endpoint whose method equals
the request's method and whose pattern matches the path. -/
theorem dispatchLoop_hit (s : State) (req : Request) (path : List Char)
    (ep : Endpoint State) (rest : List (Endpoint State)) (m : MatchResult)
    (hm : ep.method.eqMethod req.method = true)
    (hp : ep.path.path_match path = some m) :
    dispatchLoop s req path (ep :: rest) = ep.chain.run s (req.insertExt m) := by
  simp [dispatchLoop, hm, hp]

/-- Auxiliary: the scan over `pre ++ ep :: post` where all of `pre` is
skipped and `ep` matches dispatches to `ep`, for any `post`. -/
theorem dispatchLoop_first (s : State) (req : Request) (path : List Char)
    (pre post : List (Endpoint State)) (ep : Endpoint State) (m : MatchResult)
    (hskip : ∀ e ∈ pre, e.method.eqMethod req.method = false ∨
        e.path.path_match path = none)
    (hm : ep.method.eqMethod req.method = true)
    (hp : ep.path.path_match path = some m) :
    dispatchLoop s req path (pre ++ ep :: post) =
      ep.chain.run s (req.insertExt m) := by
  induction pre with
  | nil => simpa using dispatchLoop_hit s req path ep post m hm hp
  | cons e pre ih =>
    rw [List.cons_append,
      dispatchLoop_skip s req path e (pre ++ ep :: post) (hskip e (by simp))]
    exact ih (fun e2 he2 => hskip e2 (by simp [he2]))

/-- Auxiliary: the scan over a vector in which every endpoint is
skipped falls through to the 404 reply. -/
theorem dispatchLoop_all_skip (s : State) (req : Request) (path : List Char)
    (eps : List (Endpoint State))
    (h : ∀ ep ∈ eps, ep.method.eqMethod req.method = false ∨
        ep.path.path_match path = none) :
    dispatchLoop s req path eps = Except.ok ⟨404, "Not found".toList⟩ := by
  induction eps with
  | nil => rfl
  | cons e rest ih =>
    rw [dispatchLoop_skip s req path e rest (h e (by simp))]
    exact ih (fun e2 he2 => h e2 (by simp [he2]))

/-- C8: when the request path begins with the router's mount prefix,
`run` does not hit the assertion-failure branch (the result is `some`),
and matching is performed against the path with its leading occurrence
of the prefix removed (for an empty prefix, the unchanged path). -/
theorem run_assert_strip (r : Router State) (s : State) (req : Request)
    (h : r.pfx.isPrefixOf req.path = true) :
    ((r.run s req).isSome = true) ∧
    (r.run s req =
      some (dispatchLoop s req (req.path.drop r.pfx.length) r.endpoints)) := by
  have hstrip := replaceFirst_of_isPrefixOf req.path r.pfx h
  refine ⟨?_, ?_⟩ <;> simp [Router.run, h, hstrip]

/-- Concrete sample data used by the dispatch witnesses. -/
def wHandler : End Unit := fun _ _ => Except.ok ⟨200, "ok".toList⟩

def wEp1 : Endpoint Unit :=
  ⟨RouteMethod.Method "POST".toList, ParsedPath.parse "/hello/:name".toList,
    Chain.terminal wHandler⟩

def wEp2 : Endpoint Unit :=
  ⟨RouteMethod.All, ParsedPath.parse "/hello/:name".toList,
    Chain.terminal wHandler⟩

def wRouter1 : Router Unit := ⟨[], [wEp1, wEp2]⟩

def wRouter2 : Router Unit := ⟨[], [wEp1]⟩

def wRouter8 : Router Unit := ⟨"/much".toList, []⟩

def wReq1 : Request := ⟨"GET".toList, "/hello/world".toList, none⟩

def wReq8 : Request := ⟨"GET".toList, "/much/hello".toList, none⟩

theorem run_assert_strip_witness :
    (wRouter8.pfx.isPrefixOf wReq8.path = true) ∧
    ((wRouter8.run () wReq8).isSome = true) ∧
    (wRouter8.run () wReq8 =
      some (dispatchLoop () wReq8 (wReq8.path.drop wRouter8.pfx.length)
        wRouter8.endpoints)) :=
  ⟨by decide, (run_assert_strip wRouter8 () wReq8 (by decide)).1,
   (run_assert_strip wRouter8 () wReq8 (by decide)).2⟩

/-- C1: under the prefix precondition, when the endpoint vector splits
as `pre ++ ep :: post` where every endpoint of `pre` either has a
non-equal method (so it is skipped whether or not its pattern matches)
or a non-matching pattern, and `ep` has an equal method and a pattern
matching the stripped path with Match Result `m`, then `run` inserts
`m` into the request's extension data, runs `ep`'s chain with the
shared state and returns its result — independently of the later
endpoints `post`, which are never examined. -/
theorem run_first_match (r : Router State) (s : State) (req : Request)
    (pre post : List (Endpoint State)) (ep : Endpoint State) (m : MatchResult)
    (hpre : r.pfx.isPrefixOf req.path = true)
    (heps : r.endpoints = pre ++ ep :: post)
    (hskip : ∀ e ∈ pre, e.method.eqMethod req.method = false ∨
        e.path.path_match (replaceFirst req.path r.pfx) = none)
    (hm : ep.method.eqMethod req.method = true)
    (hp : ep.path.path_match (replaceFirst req.path r.pfx) = some m) :
    r.run s req = some (ep.chain.run s (req.insertExt m)) := by
  simp [Router.run, hpre, heps,
    dispatchLoop_first s req (replaceFirst req.path r.pfx) pre post ep m
      hskip hm hp]

theorem run_first_match_witness :
    (wRouter1.pfx.isPrefixOf wReq1.path = true) ∧
    (wRouter1.endpoints = [wEp1] ++ wEp2 :: []) ∧
    (∀ e ∈ [wEp1], e.method.eqMethod wReq1.method = false ∨
        e.path.path_match (replaceFirst wReq1.path wRouter1.pfx) = none) ∧
    (wEp2.method.eqMethod wReq1.method = true) ∧
    (wEp2.path.path_match (replaceFirst wReq1.path wRouter1.pfx) =
      some [("name".toList, "world".toList)]) ∧
    (wRouter1.run () wReq1 =
      some (wEp2.chain.run ()
        (wReq1.insertExt [("name".toList, "world".toList)]))) :=
  ⟨by decide, rfl, by decide, by decide, by decide,
   run_first_match wRouter1 () wReq1 [wEp1] [] wEp2
     [("name".toList, "world".toList)]
     (by decide) rfl (by decide) (by decide) (by decide)⟩

/-- C2: under the prefix precondition, when no endpoint has both an
equal method and a pattern matching the stripped path, `run` returns
the synthesized not-found response — status 404, body "Not found" —
as a success value (`Except.ok`), never an error value. -/
theorem run_not_found (r : Router State) (s : State) (req : Request)
    (hpre : r.pfx.isPrefixOf req.path = true)
    (hnone : ∀ ep ∈ r.endpoints, ep.method.eqMethod req.method = false ∨
        ep.path.path_match (replaceFirst req.path r.pfx) = none) :
    r.run s req = some (Except.ok ⟨404, "Not found".toList⟩) := by
  simp [Router.run, hpre,
    dispatchLoop_all_skip s req (replaceFirst req.path r.pfx) r.endpoints hnone]

theorem run_not_found_witness :
    (wRouter2.pfx.isPrefixOf wReq1.path = true) ∧
    (∀ ep ∈ wRouter2.endpoints, ep.method.eqMethod wReq1.method = false ∨
        ep.path.path_match (replaceFirst wReq1.path wRouter2.pfx) = none) ∧
    (wRouter2.run () wReq1 = some (Except.ok ⟨404, "Not found".toList⟩)) :=
  ⟨by decide, by decide, run_not_found wRouter2 () wReq1 (by decide) (by decide)⟩

end Hreq
